import Mathlib

/-!
# Kafka metadata handler (perbu/redpanda, src/v/kafka/server/handlers/metadata.cc)

Shallow embedding of the metadata request/response wire codec and of the
topic-resolution orchestrator, together with proofs settling the frozen
claims C1..C10.

The wire is modelled as a list of tagged primitive tokens: the byte-level
framing (network byte order, length prefixes) lives in `request_reader` /
`response_writer`, which are outside the repository; the version-gating
logic, which is what the claims are about, is entirely in `metadata.cc`
and is embedded faithfully.  A nullable array is a distinguished token
carrying `Option` (absent vs present-with-count), mirroring the null
sentinel of the wire format.
-/

namespace Kafka

/-- One primitive wire token, as written by `response_writer` / read by
`request_reader`.  `wNullLen none` is the null-array sentinel, distinct
from `wNullLen (some 0)` (present but empty). -/
inductive WireTok where
  | wBool (b : Bool)
  | wInt16 (n : Int)
  | wInt32 (n : Int)
  | wStr (s : String)
  | wNullStr (s : Option String)
  | wLen (n : Nat)
  | wNullLen (n : Option Nat)
deriving DecidableEq, Repr

/-- Embeds `request_reader::read_bool`. -/
def readBool : List WireTok → Option (Bool × List WireTok)
  | .wBool b :: ts => some (b, ts)
  | _ => none

/-- Embeds `request_reader::read_int16`. -/
def readInt16 : List WireTok → Option (Int × List WireTok)
  | .wInt16 n :: ts => some (n, ts)
  | _ => none

/-- Embeds `request_reader::read_int32`. -/
def readInt32 : List WireTok → Option (Int × List WireTok)
  | .wInt32 n :: ts => some (n, ts)
  | _ => none

/-- Embeds `request_reader::read_string`. -/
def readString : List WireTok → Option (String × List WireTok)
  | .wStr s :: ts => some (s, ts)
  | _ => none

/-- Embeds `request_reader::read_nullable_string`. -/
def readNullString : List WireTok → Option (Option String × List WireTok)
  | .wNullStr s :: ts => some (s, ts)
  | _ => none

/-- Read `n` consecutive elements with element reader `f`. -/
def readN (f : List WireTok → Option (α × List WireTok)) :
    Nat → List WireTok → Option (List α × List WireTok)
  | 0, ts => some ([], ts)
  | n + 1, ts =>
    Option.bind (f ts) fun (x, ts1) =>
    Option.bind (readN f n ts1) fun (xs, ts2) =>
    some (x :: xs, ts2)

/-- Embeds `request_reader::read_array`: a count token followed by that many
elements. -/
def read_array (f : List WireTok → Option (α × List WireTok)) :
    List WireTok → Option (List α × List WireTok)
  | .wLen n :: ts => readN f n ts
  | _ => none

/-- Embeds `request_reader::read_nullable_array`: the null sentinel yields an
absent array; a present count is followed by that many elements. -/
def read_nullable_array (f : List WireTok → Option (α × List WireTok)) :
    List WireTok → Option (Option (List α) × List WireTok)
  | .wNullLen none :: ts => some (none, ts)
  | .wNullLen (some n) :: ts =>
    Option.bind (readN f n ts) fun (xs, ts1) => some (some xs, ts1)
  | _ => none

/-- Embeds `response_writer::write_array`: count, then the elements. -/
def write_array (xs : List α) (f : α → List WireTok) : List WireTok :=
  .wLen xs.length :: (xs.map f).flatten

/-- Embeds `response_writer::write_nullable_array`: null sentinel for an absent
array, otherwise count then elements. -/
def write_nullable_array (xs : Option (List α)) (f : α → List WireTok) :
    List WireTok :=
  match xs with
  | none => [.wNullLen none]
  | some l => .wNullLen (some l.length) :: (l.map f).flatten

/-- Embeds `kafka::metadata_request` (struct fields from `metadata.h`, which is
outside the repository snapshot; the field set is exactly the one used by
`metadata.cc`, and struct defaults are modelled from the spec as the
absent/default values: `none`, `false`). -/
structure metadata_request where
  topics : Option (List String)
  allow_auto_topic_creation : Bool
  include_cluster_authorized_operations : Bool
  include_topic_authorized_operations : Bool
  list_all_topics : Bool
deriving DecidableEq, Repr

/-- Embeds `metadata_request::decode` (metadata.cc lines 31-52).  The reader is a
token stream; failure of any read, and the undefined dereference
`topics->empty()` on an absent array at version 0, yield `none`. -/
def metadata_request.decode (version : Nat) (ts : List WireTok) :
    Option (metadata_request × List WireTok) :=
  Option.bind (read_nullable_array readString ts) fun (topics, ts1) =>
  Option.bind (if 4 ≤ version then readBool ts1 else some (false, ts1))
    fun (allow, ts2) =>
  Option.bind (if 8 ≤ version then readBool ts2 else some (false, ts2))
    fun (incCluster, ts3) =>
  Option.bind (if 8 ≤ version then readBool ts3 else some (false, ts3))
    fun (incTopic, ts4) =>
  -- version > 0: list_all_topics = !topics (absence); version 0:
  -- list_all_topics = topics->empty(), an unconditional dereference of
  -- the nullable array.
  Option.bind (if 1 ≤ version then some topics.isNone
               else topics.map List.isEmpty) fun la =>
  some ({ topics := topics,
          allow_auto_topic_creation := allow,
          include_cluster_authorized_operations := incCluster,
          include_topic_authorized_operations := incTopic,
          list_all_topics := la }, ts4)

/-- Embeds `metadata_request::encode` (metadata.cc lines 54-66). -/
def metadata_request.encode (version : Nat) (r : metadata_request) :
    List WireTok :=
  write_nullable_array r.topics (fun tp => [.wStr tp]) ++
  (if 4 ≤ version then [.wBool r.allow_auto_topic_creation] else []) ++
  (if 8 ≤ version then
    [.wBool r.include_cluster_authorized_operations,
     .wBool r.include_topic_authorized_operations] else [])

/-- Embeds `kafka::metadata_response::broker` (field set from its uses in
metadata.cc; defaults modelled from the spec: absent rack is `none`). -/
structure metadata_response.broker where
  node_id : Int
  host : String
  port : Int
  rack : Option String
deriving DecidableEq, Repr

/-- Embeds `kafka::metadata_response::partition` (field set from metadata.cc;
numeric defaults modelled from the spec as 0/empty). -/
structure metadata_response.partition where
  err_code : Int
  index : Int
  leader : Int
  leader_epoch : Int
  replica_nodes : List Int
  isr_nodes : List Int
  offline_replicas : List Int
deriving DecidableEq, Repr

/-- Embeds `kafka::metadata_response::topic` (field set from metadata.cc; defaults
modelled from the spec: error stubs carry empty partitions and zero
authorized-ops, `is_internal` defaults to false). -/
structure metadata_response.topic where
  err_code : Int
  name : String
  is_internal : Bool
  partitions : List metadata_response.partition
  topic_authorized_operations : Int
deriving DecidableEq, Repr

/-- Embeds `kafka::metadata_response` (field set from metadata.cc; throttle time is
its millisecond count, defaults modelled from the spec as 0/none/empty). -/
structure metadata_response where
  throttle_time : Int
  brokers : List metadata_response.broker
  cluster_id : Option String
  controller_id : Int
  topics : List metadata_response.topic
  cluster_authorized_operations : Int
deriving DecidableEq, Repr

/-- The broker-element writer inlined in `metadata_response::encode`
(metadata.cc lines 86-94). -/
def metadata_response.broker.encode (version : Nat)
    (b : metadata_response.broker) : List WireTok :=
  [.wInt32 b.node_id, .wStr b.host, .wInt32 b.port] ++
  (if 1 ≤ version then [.wNullStr b.rack] else [])

/-- Embeds `metadata_response::partition::encode` (metadata.cc lines 127-148). -/
def metadata_response.partition.encode (version : Nat)
    (p : metadata_response.partition) : List WireTok :=
  [.wInt16 p.err_code, .wInt32 p.index, .wInt32 p.leader] ++
  (if 7 ≤ version then [.wInt32 p.leader_epoch] else []) ++
  write_array p.replica_nodes (fun n => [.wInt32 n]) ++
  write_array p.isr_nodes (fun n => [.wInt32 n]) ++
  (if 5 ≤ version then write_array p.offline_replicas (fun n => [.wInt32 n])
   else [])

/-- Embeds `metadata_response::topic::encode` (metadata.cc lines 111-125). -/
def metadata_response.topic.encode (version : Nat)
    (t : metadata_response.topic) : List WireTok :=
  [.wInt16 t.err_code, .wStr t.name] ++
  (if 1 ≤ version then [.wBool t.is_internal] else []) ++
  write_array t.partitions (metadata_response.partition.encode version) ++
  (if 8 ≤ version then [.wInt32 t.topic_authorized_operations] else [])

/-- Embeds `metadata_response::encode` (metadata.cc lines 78-109). -/
def metadata_response.encode (version : Nat) (resp : metadata_response) :
    List WireTok :=
  (if 3 ≤ version then [.wInt32 resp.throttle_time] else []) ++
  write_array resp.brokers (metadata_response.broker.encode version) ++
  (if 2 ≤ version then [.wNullStr resp.cluster_id] else []) ++
  (if 1 ≤ version then [.wInt32 resp.controller_id] else []) ++
  write_array resp.topics (metadata_response.topic.encode version) ++
  (if 8 ≤ version then [.wInt32 resp.cluster_authorized_operations] else [])

/-- The broker-element reader inlined in `metadata_response::decode`
(metadata.cc lines 157-167). -/
def metadata_response.broker.decode (version : Nat) (ts : List WireTok) :
    Option (metadata_response.broker × List WireTok) :=
  Option.bind (readInt32 ts) fun (node_id, ts1) =>
  Option.bind (readString ts1) fun (host, ts2) =>
  Option.bind (readInt32 ts2) fun (port, ts3) =>
  Option.bind (if 1 ≤ version then readNullString ts3
               else some (none, ts3)) fun (rack, ts4) =>
  some ({ node_id := node_id, host := host, port := port,
          rack := rack }, ts4)

/-- The partition-element reader inlined in `metadata_response::decode`
(metadata.cc lines 185-208). -/
def metadata_response.partition.decode (version : Nat) (ts : List WireTok) :
    Option (metadata_response.partition × List WireTok) :=
  Option.bind (readInt16 ts) fun (err_code, ts1) =>
  Option.bind (readInt32 ts1) fun (index, ts2) =>
  Option.bind (readInt32 ts2) fun (leader, ts3) =>
  Option.bind (if 7 ≤ version then readInt32 ts3 else some (0, ts3))
    fun (leader_epoch, ts4) =>
  Option.bind (read_array readInt32 ts4) fun (replica_nodes, ts5) =>
  Option.bind (read_array readInt32 ts5) fun (isr_nodes, ts6) =>
  Option.bind (if 5 ≤ version then read_array readInt32 ts6
               else some ([], ts6)) fun (offline_replicas, ts7) =>
  some ({ err_code := err_code, index := index, leader := leader,
          leader_epoch := leader_epoch, replica_nodes := replica_nodes,
          isr_nodes := isr_nodes,
          offline_replicas := offline_replicas }, ts7)

/-- The topic-element reader inlined in `metadata_response::decode`
(metadata.cc lines 177-213). -/
def metadata_response.topic.decode (version : Nat) (ts : List WireTok) :
    Option (metadata_response.topic × List WireTok) :=
  Option.bind (readInt16 ts) fun (err_code, ts1) =>
  Option.bind (readString ts1) fun (name, ts2) =>
  Option.bind (if 1 ≤ version then readBool ts2 else some (false, ts2))
    fun (is_internal, ts3) =>
  Option.bind (read_array (metadata_response.partition.decode version) ts3)
    fun (partitions, ts4) =>
  Option.bind (if 8 ≤ version then readInt32 ts4 else some (0, ts4))
    fun (ops, ts5) =>
  some ({ err_code := err_code, name := name, is_internal := is_internal,
          partitions := partitions,
          topic_authorized_operations := ops }, ts5)

/-- Embeds `metadata_response::decode` (metadata.cc lines 150-218). -/
def metadata_response.decode (version : Nat) (ts : List WireTok) :
    Option (metadata_response × List WireTok) :=
  Option.bind (if 3 ≤ version then readInt32 ts else some (0, ts))
    fun (throttle_time, ts1) =>
  Option.bind (read_array (metadata_response.broker.decode version) ts1)
    fun (brokers, ts2) =>
  Option.bind (if 2 ≤ version then readNullString ts2
               else some (none, ts2)) fun (cluster_id, ts3) =>
  Option.bind (if 1 ≤ version then readInt32 ts3 else some (0, ts3))
    fun (controller_id, ts4) =>
  Option.bind (read_array (metadata_response.topic.decode version) ts4)
    fun (topics, ts5) =>
  Option.bind (if 8 ≤ version then readInt32 ts5 else some (0, ts5))
    fun (ops, ts6) =>
  some ({ throttle_time := throttle_time, brokers := brokers,
          cluster_id := cluster_id, controller_id := controller_id,
          topics := topics, cluster_authorized_operations := ops }, ts6)

/-- The version-`v` restriction of a request: fields whose version gate is
above `v` at their default; `list_all_topics` recomputed as decode does.
`none` exactly when decode has no defined result for the re-read value
(version 0 with an absent topics array).  `r.normalize v = some r` states
that `r` is populated only with fields available at version `v`. -/
def metadata_request.normalize (version : Nat) (r : metadata_request) :
    Option metadata_request :=
  match (if 1 ≤ version then some r.topics.isNone
         else r.topics.map List.isEmpty) with
  | none => none
  | some la =>
    some { topics := r.topics,
           allow_auto_topic_creation :=
             if 4 ≤ version then r.allow_auto_topic_creation else false,
           include_cluster_authorized_operations :=
             if 8 ≤ version then r.include_cluster_authorized_operations
             else false,
           include_topic_authorized_operations :=
             if 8 ≤ version then r.include_topic_authorized_operations
             else false,
           list_all_topics := la }

/-- Version-`v` restriction of a response broker. -/
def metadata_response.broker.normalize (version : Nat)
    (b : metadata_response.broker) : metadata_response.broker :=
  { b with rack := if 1 ≤ version then b.rack else none }

/-- Version-`v` restriction of a response partition. -/
def metadata_response.partition.normalize (version : Nat)
    (p : metadata_response.partition) : metadata_response.partition :=
  { p with leader_epoch := if 7 ≤ version then p.leader_epoch else 0,
           offline_replicas :=
             if 5 ≤ version then p.offline_replicas else [] }

/-- Version-`v` restriction of a response topic. -/
def metadata_response.topic.normalize (version : Nat)
    (t : metadata_response.topic) : metadata_response.topic :=
  { t with is_internal := if 1 ≤ version then t.is_internal else false,
           partitions :=
             t.partitions.map (metadata_response.partition.normalize version),
           topic_authorized_operations :=
             if 8 ≤ version then t.topic_authorized_operations else 0 }

/-- Version-`v` restriction of a response: fields gated above `v` at their
defaults.  `resp.normalize v = resp` states that `resp` is populated only
with fields available at version `v`. -/
def metadata_response.normalize (version : Nat) (resp : metadata_response) :
    metadata_response :=
  { throttle_time := if 3 ≤ version then resp.throttle_time else 0,
    brokers := resp.brokers.map (metadata_response.broker.normalize version),
    cluster_id := if 2 ≤ version then resp.cluster_id else none,
    controller_id := if 1 ≤ version then resp.controller_id else 0,
    topics := resp.topics.map (metadata_response.topic.normalize version),
    cluster_authorized_operations :=
      if 8 ≤ version then resp.cluster_authorized_operations else 0 }

/-! ## Topic-resolution orchestrator (metadata.cc lines 220-449)

The metadata cache, authorizer, topics frontend and process configuration
are external collaborators (their code is outside the repository); they
enter the embedding as read-only fields of the request context, exactly
the queries `get_topic_metadata` and `create_topic` make of them. -/

/-- Kafka error codes used by metadata.cc (`kafka/errors.h` is outside the
repository; the numeric values are the standard Kafka protocol codes and
only their distinctness matters here). -/
def error_code.none : Int := 0

/-- Kafka error code `unknown_topic_or_partition`. -/
def error_code.unknown_topic_or_partition : Int := 3

/-- Kafka error code `request_timed_out`. -/
def error_code.request_timed_out : Int := 7

/-- Kafka error code `invalid_topic_exception`. -/
def error_code.invalid_topic_exception : Int := 17

/-- Kafka error code `topic_authorization_failed`. -/
def error_code.topic_authorization_failed : Int := 29

/-- Embeds `cluster::errc` outcomes distinguished by `create_topic`
(metadata.cc lines 322-323): success, topic_already_exists, or any other
error code. -/
inductive errc where
  | success
  | topic_already_exists
  | other (n : Int)
deriving DecidableEq, Repr

/-- Embeds `model::broker_shard` (replica entry of a cached partition). -/
structure broker_shard where
  node_id : Int
  shard : Nat
deriving DecidableEq, Repr

/-- Embeds `model::partition_metadata` as read by metadata.cc: id, optional
leader node, replica list. -/
structure partition_metadata where
  id : Int
  leader_node : Option Int
  replicas : List broker_shard
deriving DecidableEq, Repr

/-- Embeds `model::topic_metadata` as read by metadata.cc: namespace, topic name,
partition list (`tp_ns.ns`, `tp_ns.tp`, `partitions`). -/
structure topic_metadata where
  ns : String
  tp : String
  partitions : List partition_metadata
deriving DecidableEq, Repr

/-- Embeds `model::kafka_namespace`. -/
def kafka_namespace : String := "kafka"

/-- Embeds `cluster::topic_result`: the per-topic outcome returned by
`topics_frontend::autocreate_topics` (`tp_ns.tp` echoed name, `ec`). -/
structure topic_result where
  tp : String
  ec : errc
deriving DecidableEq, Repr

/-- The request context as consumed by the orchestrator: the authorizer,
the metadata cache snapshot, process configuration, and the topics
frontend, all external collaborators modelled at their interface.
`is_materialized_topic` / `get_source_topic` embed `model`-layer helpers
that are outside the repository, modelled from the spec: a materialized
name is an alias resolved and authorized via its source topic.
`autocreate` returns `none` when the asynchronous call throws or times
out, otherwise the single `topic_result` (metadata.cc asserts exactly one
result per submitted topic).  `map_topic_error_code` embeds
`kafka::map_topic_error_code` (outside the repository).
`authorized_operations` embeds `details::authorized_operations` composed
with `to_bit_field`. -/
structure request_context where
  authorized_describe : String → Bool
  authorized_create : String → Bool
  all_topics_metadata : List topic_metadata
  auto_create_topics_enabled : Bool
  autocreate : String → Option topic_result
  is_materialized_topic : String → Bool
  get_source_topic : String → String
  map_topic_error_code : errc → Int
  authorized_operations : String → Int

/-- Embeds `metadata_cache::get_topic_metadata(topic_namespace)`: find the cache
entry with the given namespace and name. -/
def request_context.get_topic_metadata (ctx : request_context)
    (ns tp : String) : Option topic_metadata :=
  ctx.all_topics_metadata.find? (fun t => t.ns == ns && t.tp == tp)

/-- The partition mapper inside
`metadata_response::topic::make_from_topic_metadata`
(metadata.cc lines 230-246): leader is the leader node or the sentinel
-1, leader epoch 0, ISR initialized to the replica list, offline empty. -/
def partition_from_metadata (p_md : partition_metadata) :
    metadata_response.partition :=
  { err_code := error_code.none,
    index := p_md.id,
    leader := p_md.leader_node.getD (-1),
    leader_epoch := 0,
    replica_nodes := p_md.replicas.map broker_shard.node_id,
    isr_nodes := p_md.replicas.map broker_shard.node_id,
    offline_replicas := [] }

/-- Embeds `metadata_response::topic::make_from_topic_metadata` (one-argument
overload, metadata.cc lines 220-249). -/
def make_from_topic_metadata (tp_md : topic_metadata) :
    metadata_response.topic :=
  { err_code := error_code.none,
    name := tp_md.tp,
    is_internal := false,
    partitions := tp_md.partitions.map partition_from_metadata,
    topic_authorized_operations := 0 }

/-- Embeds `metadata_response::topic::make_from_topic_metadata` (two-argument
overload, metadata.cc lines 251-261): substitutes the originally
requested name when it differs and is a materialized-topic name.  It is
defined in metadata.cc but never called by it. -/
def make_from_topic_metadata2 (ctx : request_context)
    (tp_md : topic_metadata) (topic : String) : metadata_response.topic :=
  let tp := make_from_topic_metadata tp_md
  if topic ≠ tp.name ∧ ctx.is_materialized_topic topic then
    { tp with name := topic }
  else tp

/-- Embeds `kafka::make_error_topic_response` (metadata.cc lines 350-353): an
error stub carries only the error code and the name; the remaining
fields are the struct defaults (empty partitions, zero ops). -/
def make_error_topic_response (tp : String) (ec : Int) :
    metadata_response.topic :=
  { err_code := ec, name := tp, is_internal := false, partitions := [],
    topic_authorized_operations := 0 }

/-- Embeds `kafka::make_topic_response` (metadata.cc lines 355-370). -/
def make_topic_response (ctx : request_context) (rq : metadata_request)
    (md : topic_metadata) : metadata_response.topic :=
  let auth_operations :=
    if rq.include_topic_authorized_operations then
      ctx.authorized_operations md.tp
    else 0
  let res := make_from_topic_metadata md
  { res with topic_authorized_operations := auth_operations }

/-- Embeds `kafka::create_topic` (metadata.cc lines 305-348): submit one
auto-creation; an exception/timeout of the asynchronous call yields a
request_timed_out stub; a creation error yields a stub with the mapped
code; success or already-exists re-reads the cache, yielding an
invalid_topic_exception stub if still absent and a full topic response
otherwise. -/
def create_topic (ctx : request_context) (topic : String) :
    metadata_response.topic :=
  match ctx.autocreate topic with
  | none => make_error_topic_response topic error_code.request_timed_out
  | some r =>
    if ¬(r.ec = errc.success ∨ r.ec = errc.topic_already_exists) then
      make_error_topic_response r.tp (ctx.map_topic_error_code r.ec)
    else
      match ctx.get_topic_metadata kafka_namespace r.tp with
      | none =>
        make_error_topic_response r.tp error_code.invalid_topic_exception
      | some tp_md => make_from_topic_metadata tp_md

/-- The body of the per-topic loop of `get_topic_metadata`
(metadata.cc lines 404-441): `Sum.inl` is a synchronously produced
response pushed onto `res`; `Sum.inr` is a topic submitted for
asynchronous creation (pushed onto `new_topics`). -/
def resolve_one (ctx : request_context) (request : metadata_request)
    (topic : String) : metadata_response.topic ⊕ String :=
  -- source_topic = model::get_source_topic(topic), inlined
  if ctx.authorized_describe (ctx.get_source_topic topic) = false then
    .inl (make_error_topic_response topic
      error_code.topic_authorization_failed)
  else
    match ctx.get_topic_metadata kafka_namespace
        (ctx.get_source_topic topic) with
    | some md => .inl (make_topic_response ctx request md)
    | none =>
      if ctx.auto_create_topics_enabled = false ∨
          request.allow_auto_topic_creation = false then
        .inl (make_error_topic_response topic
          error_code.unknown_topic_or_partition)
      else if ctx.authorized_create (ctx.get_source_topic topic) = false then
        .inl (make_error_topic_response topic
          error_code.topic_authorization_failed)
      else .inr topic

/-- The per-topic loop of `get_topic_metadata`: accumulates the
synchronous results (`res`) and the creation submissions (`new_topics`)
in order. -/
def resolve_loop (ctx : request_context) (request : metadata_request) :
    List String → List metadata_response.topic × List String
  | [] => ([], [])
  | topic :: rest =>
    let rl := resolve_loop ctx request rest
    match resolve_one ctx request topic with
    | .inl r => (r :: rl.1, rl.2)
    | .inr c => (rl.1, c :: rl.2)

/-- Embeds `kafka::get_topic_metadata` (metadata.cc lines 372-449).  In the
list-all branch the source filters to the kafka namespace, then
`std::partition`s the snapshot into authorized-for-describe followed by
the rest and drops the unauthorized suffix; `std::partition` keeps
exactly the elements satisfying the predicate (their relative order is
unspecified by it), embedded here as the filtered sequence.  The
specific-topics branch dereferences `*request.topics`; the claims about
it all carry a present topics array.  `when_all_succeed` resolves the
submitted creations and appends their results in submission order. -/
def get_topic_metadata (ctx : request_context)
    (request : metadata_request) : List metadata_response.topic :=
  if request.list_all_topics then
    let topics :=
      (ctx.all_topics_metadata.filter
        (fun t_md => t_md.ns == kafka_namespace)).filter
        (fun t_md => ctx.authorized_describe t_md.tp)
    topics.map (make_topic_response ctx request)
  else
    let (res, new_topics) :=
      resolve_loop ctx request (request.topics.getD [])
    res ++ new_topics.map (create_topic ctx)

/-! ## Helper lemmas -/

/-- Any successfully decoded request has its `list_all_topics` determined
by the version and the (then necessarily present at version 0) topics
array. -/
theorem metadata_request.decode_some_spec (version : Nat)
    (ts rest : List WireTok) (r : metadata_request)
    (h : metadata_request.decode version ts = some (r, rest)) :
    (1 ≤ version → r.list_all_topics = r.topics.isNone) ∧
    (version = 0 → ∃ l, r.topics = some l ∧ r.list_all_topics = l.isEmpty) := by
  unfold metadata_request.decode at h
  obtain ⟨⟨topics, ts1⟩, hra, h⟩ := Option.bind_eq_some.mp h
  obtain ⟨⟨allow, ts2⟩, h4, h⟩ := Option.bind_eq_some.mp h
  obtain ⟨⟨incC, ts3⟩, h8a, h⟩ := Option.bind_eq_some.mp h
  obtain ⟨⟨incT, ts4⟩, h8b, h⟩ := Option.bind_eq_some.mp h
  obtain ⟨la, hla, h⟩ := Option.bind_eq_some.mp h
  injection h with h1
  injection h1 with hr hrest
  subst hr
  by_cases hv : 1 ≤ version
  · rw [if_pos hv] at hla
    injection hla with hla
    exact ⟨fun _ => by simp [← hla], fun h0 => absurd hv (by omega)⟩
  · rw [if_neg hv] at hla
    refine ⟨fun h1 => absurd h1 hv, fun _ => ?_⟩
    cases htp : topics with
    | none => rw [htp] at hla; exact absurd hla (by simp)
    | some l =>
      rw [htp] at hla
      rw [show Option.map List.isEmpty (some l) = some l.isEmpty from rfl]
        at hla
      injection hla with hla
      exact ⟨l, by simp [htp, ← hla]⟩

/-- A topic the loop body submits for creation is returned unchanged. -/
theorem resolve_one_inr_eq (ctx : request_context) (rq : metadata_request)
    (t c : String) (h : resolve_one ctx rq t = .inr c) : c = t := by
  unfold resolve_one at h
  split at h
  · exact absurd h (by simp)
  · split at h
    · exact absurd h (by simp)
    · split at h
      · exact absurd h (by simp)
      · split at h
        · exact absurd h (by simp)
        · injection h with h1; exact h1.symm

/-- A topic pushed onto `new_topics` by `resolve_loop` is one the loop
body classified for asynchronous creation. -/
theorem resolve_one_of_mem_news (ctx : request_context)
    (rq : metadata_request) (ts : List String) (c : String)
    (h : c ∈ (resolve_loop ctx rq ts).2) :
    resolve_one ctx rq c = .inr c := by
  induction ts with
  | nil => simp [resolve_loop] at h
  | cons t rest ih =>
    unfold resolve_loop at h
    cases hone : resolve_one ctx rq t with
    | inl r =>
      simp only [hone] at h
      exact ih h
    | inr c1 =>
      simp only [hone, List.mem_cons] at h
      rcases h with h | h
      · have hct : c1 = t := resolve_one_inr_eq ctx rq t c1 hone
        rw [h, hct]
        rw [hct] at hone
        exact hone
      · exact ih h

/-! ## Claims -/

/-- C3: for every decoded metadata request, at protocol version 0
`list_all_topics` holds exactly when the requested-topics array is empty,
and at version ≥ 1 exactly when the array is absent; a present-but-empty
array at version ≥ 1 yields `list_all_topics = false`. -/
theorem C3_list_all_topics_semantics (version : Nat)
    (ts rest : List WireTok) (r : metadata_request)
    (h : metadata_request.decode version ts = some (r, rest)) :
    (version = 0 → (r.list_all_topics = true ↔ r.topics = some [])) ∧
    (1 ≤ version → (r.list_all_topics = true ↔ r.topics = none)) := by
  have hs := metadata_request.decode_some_spec version ts rest r h
  constructor
  · intro h0
    obtain ⟨l, hl, hla⟩ := hs.2 h0
    rw [hla, hl]
    cases l <;> simp
  · intro h1
    rw [hs.1 h1]
    cases htp : r.topics <;> simp

/-- Witness for C3 at a concrete version-0 request whose wire topics
array is present and empty. -/
theorem C3_witness :
    metadata_request.decode 0 [.wNullLen (some 0)] =
      some ({ topics := some [], allow_auto_topic_creation := false,
              include_cluster_authorized_operations := false,
              include_topic_authorized_operations := false,
              list_all_topics := true }, []) ∧
    (({ topics := some [], allow_auto_topic_creation := false,
        include_cluster_authorized_operations := false,
        include_topic_authorized_operations := false,
        list_all_topics := true } : metadata_request).list_all_topics = true ↔
      ({ topics := some [], allow_auto_topic_creation := false,
         include_cluster_authorized_operations := false,
         include_topic_authorized_operations := false,
         list_all_topics := true } : metadata_request).topics = some []) :=
  ⟨rfl, (C3_list_all_topics_semantics 0 [.wNullLen (some 0)] [] _ rfl).1 rfl⟩

/-- C10: decoding a metadata request at protocol version 0 dereferences
the nullable topics array unconditionally, so decode at version 0 has no
defined result when the array is read as the null sentinel, and every
defined version-0 decode carries a present topics array. -/
theorem C10_decode_v0_requires_present_topics :
    (∀ rest : List WireTok,
      metadata_request.decode 0 (.wNullLen none :: rest) = none) ∧
    (∀ (ts rest : List WireTok) (r : metadata_request),
      metadata_request.decode 0 ts = some (r, rest) →
        ∃ l, r.topics = some l) := by
  constructor
  · intro rest; rfl
  · intro ts rest r h
    obtain ⟨l, hl, _⟩ :=
      (metadata_request.decode_some_spec 0 ts rest r h).2 rfl
    exact ⟨l, hl⟩

/-- Witness for C10 at a concrete version-0 wire with a present topics
array. -/
theorem C10_witness :
    ∃ r : metadata_request,
      metadata_request.decode 0 [.wNullLen (some 1), .wStr "a"] =
        some (r, []) ∧ ∃ l, r.topics = some l :=
  ⟨{ topics := some ["a"], allow_auto_topic_creation := false,
     include_cluster_authorized_operations := false,
     include_topic_authorized_operations := false,
     list_all_topics := false },
    rfl,
    C10_decode_v0_requires_present_topics.2 [.wNullLen (some 1), .wStr "a"]
      [] _ rfl⟩

/-- C9: every response partition built from cache metadata carries the
leader node id when one is elected and the sentinel -1 otherwise; the
leader field is total (an `Int`, never absent). -/
theorem C9_partition_leader_sentinel (tp_md : topic_metadata) :
    (make_from_topic_metadata tp_md).partitions =
      tp_md.partitions.map partition_from_metadata ∧
    ∀ p_md : partition_metadata,
      (partition_from_metadata p_md).leader = p_md.leader_node.getD (-1) ∧
      (p_md.leader_node = none → (partition_from_metadata p_md).leader = -1) ∧
      (∀ n : Int, p_md.leader_node = some n →
        (partition_from_metadata p_md).leader = n) := by
  refine ⟨rfl, fun p_md => ⟨rfl, fun h => by simp [partition_from_metadata, h],
    fun n h => by simp [partition_from_metadata, h]⟩⟩

/-- Witness for C9: a leaderless partition maps to leader -1, one with
leader 5 maps to leader 5. -/
theorem C9_witness :
    (partition_from_metadata ⟨0, none, []⟩).leader = -1 ∧
    (partition_from_metadata ⟨1, some 5, []⟩).leader = 5 :=
  ⟨((C9_partition_leader_sentinel ⟨"kafka", "t", []⟩).2 ⟨0, none, []⟩).2.1 rfl,
   ((C9_partition_leader_sentinel ⟨"kafka", "t", []⟩).2
     ⟨1, some 5, []⟩).2.2 5 rfl⟩

/-- C5: a requested topic that is describe-authorized but absent from the
cache is resolved synchronously to an `unknown_topic_or_partition` stub
carrying the requested name whenever auto-creation is globally disabled
or the request disallows it (global disablement overrides
`allow_auto_topic_creation = true`), and such a topic is never submitted
for creation. -/
theorem C5_no_autocreate_when_disabled (ctx : request_context)
    (request : metadata_request) (topic : String)
    (hauth : ctx.authorized_describe (ctx.get_source_topic topic) = true)
    (hmiss : ctx.get_topic_metadata kafka_namespace
      (ctx.get_source_topic topic) = none)
    (hdis : ctx.auto_create_topics_enabled = false ∨
      request.allow_auto_topic_creation = false) :
    resolve_one ctx request topic =
      .inl (make_error_topic_response topic
        error_code.unknown_topic_or_partition) ∧
    ∀ ts : List String, topic ∉ (resolve_loop ctx request ts).2 := by
  have hone : resolve_one ctx request topic =
      .inl (make_error_topic_response topic
        error_code.unknown_topic_or_partition) := by
    rcases hdis with h | h <;> simp [resolve_one, hauth, hmiss, h]
  refine ⟨hone, fun ts hmem => ?_⟩
  have := resolve_one_of_mem_news ctx request ts topic hmem
  rw [hone] at this
  exact absurd this (by simp)

/-- Environment with a materialized topic "M" whose source topic "S" is
in the cache, all operations authorized. -/
def ctxC1 : request_context :=
  { authorized_describe := fun _ => true,
    authorized_create := fun _ => true,
    all_topics_metadata := [⟨kafka_namespace, "S", []⟩],
    auto_create_topics_enabled := true,
    autocreate := fun _ => none,
    is_materialized_topic := fun t => t == "M",
    get_source_topic := fun t => if t == "M" then "S" else t,
    map_topic_error_code := fun _ => 0,
    authorized_operations := fun _ => 0 }

/-- A specific-topics request naming only the materialized topic "M". -/
def requestC1 : metadata_request :=
  { topics := some ["M"],
    allow_auto_topic_creation := false,
    include_cluster_authorized_operations := false,
    include_topic_authorized_operations := false,
    list_all_topics := false }

/-- C1 (evaluation of the code at the failing input): requesting the
materialized topic "M" whose source "S" is found in the cache, the
orchestrator resolves and authorizes "S" but the appended ResponseTopic
carries the name "S", not the requested "M": the found-in-cache path
goes through `make_topic_response`, which calls the one-argument
`make_from_topic_metadata`; the two-argument overload that substitutes
the materialized name (and whose comment states the response must
contain the requested topic) is never called by metadata.cc, as the last
conjunct shows it would indeed yield "M". -/
theorem C1_materialized_name_not_echoed :
    ctxC1.is_materialized_topic "M" = true ∧
    ctxC1.get_source_topic "M" = "S" ∧
    ctxC1.get_topic_metadata kafka_namespace "S" =
      some ⟨kafka_namespace, "S", []⟩ ∧
    (get_topic_metadata ctxC1 requestC1).map metadata_response.topic.name =
      ["S"] ∧
    (make_from_topic_metadata2 ctxC1 ⟨kafka_namespace, "S", []⟩ "M").name =
      "M" := by
  decide

/-- C7: in the list-all-topics path the orchestrator returns exactly the
kafka-namespace, describe-authorized cache topics as success entries;
unauthorized topics are silently dropped (no entry carries their name),
whereas the specific-topics path error-stubs an unauthorized topic. -/
theorem C7_list_all_drops_unauthorized (ctx : request_context)
    (request : metadata_request)
    (hall : request.list_all_topics = true) :
    get_topic_metadata ctx request =
      ((ctx.all_topics_metadata.filter
          (fun t_md => t_md.ns == kafka_namespace)).filter
        (fun t_md => ctx.authorized_describe t_md.tp)).map
        (make_topic_response ctx request) ∧
    (∀ r ∈ get_topic_metadata ctx request,
      r.err_code = error_code.none) ∧
    (∀ t_md ∈ ctx.all_topics_metadata,
      ctx.authorized_describe t_md.tp = false →
      ∀ r ∈ get_topic_metadata ctx request, r.name ≠ t_md.tp) ∧
    (∀ (rq2 : metadata_request) (topic : String),
      ctx.authorized_describe (ctx.get_source_topic topic) = false →
      resolve_one ctx rq2 topic =
        .inl (make_error_topic_response topic
          error_code.topic_authorization_failed)) := by
  have heq : get_topic_metadata ctx request =
      ((ctx.all_topics_metadata.filter
          (fun t_md => t_md.ns == kafka_namespace)).filter
        (fun t_md => ctx.authorized_describe t_md.tp)).map
        (make_topic_response ctx request) := by
    simp [get_topic_metadata, hall]
  refine ⟨heq, ?_, ?_, ?_⟩
  · intro r hr
    rw [heq] at hr
    obtain ⟨md, hmd, hrr⟩ := List.mem_map.mp hr
    rw [← hrr]
    rfl
  · intro t_md hmem hnoauth r hr hname
    rw [heq] at hr
    obtain ⟨md, hmd, hrr⟩ := List.mem_map.mp hr
    have hauth : ctx.authorized_describe md.tp = true :=
      (List.mem_filter.mp hmd).2
    have : r.name = md.tp := by rw [← hrr]; rfl
    rw [this] at hname
    rw [hname] at hauth
    rw [hauth] at hnoauth
    exact absurd hnoauth (by simp)
  · intro rq2 topic hna
    simp [resolve_one, hna]

/-- Environment for the C7 witness: "a" authorized, "b" not, "c" outside
the kafka namespace. -/
def ctxC7 : request_context :=
  { authorized_describe := fun t => t == "a",
    authorized_create := fun _ => true,
    all_topics_metadata :=
      [⟨kafka_namespace, "a", []⟩, ⟨kafka_namespace, "b", []⟩,
       ⟨"other", "c", []⟩],
    auto_create_topics_enabled := true,
    autocreate := fun _ => none,
    is_materialized_topic := fun _ => false,
    get_source_topic := fun t => t,
    map_topic_error_code := fun _ => 0,
    authorized_operations := fun _ => 0 }

/-- A list-all-topics request. -/
def requestC7 : metadata_request :=
  { topics := none,
    allow_auto_topic_creation := false,
    include_cluster_authorized_operations := false,
    include_topic_authorized_operations := false,
    list_all_topics := true }

/-- Witness for C7: only the authorized kafka-namespace topic "a"
survives, as a success entry; "b" is dropped without a stub. -/
theorem C7_witness :
    get_topic_metadata ctxC7 requestC7 =
      [⟨error_code.none, "a", false, [], 0⟩] := by
  have h := (C7_list_all_drops_unauthorized ctxC7 requestC7 rfl).1
  rw [h]
  decide

/-- The synchronous outcome of the loop body: the ResponseTopic pushed
onto `res`, if any. -/
def sync_result (ctx : request_context) (rq : metadata_request)
    (t : String) : Option metadata_response.topic :=
  match resolve_one ctx rq t with
  | .inl r => some r
  | .inr _ => none

/-- Whether the loop body submits the topic for asynchronous creation. -/
def submits_creation (ctx : request_context) (rq : metadata_request)
    (t : String) : Bool :=
  match resolve_one ctx rq t with
  | .inl _ => false
  | .inr _ => true

/-- The function `resolve_loop` splits the requested names into the synchronous
results, in original relative order, and the creation submissions, in
original relative order. -/
theorem resolve_loop_eq (ctx : request_context) (rq : metadata_request)
    (ts : List String) :
    resolve_loop ctx rq ts =
      (ts.filterMap (sync_result ctx rq),
       ts.filter (submits_creation ctx rq)) := by
  induction ts with
  | nil => rfl
  | cons t rest ih =>
    unfold resolve_loop
    cases hone : resolve_one ctx rq t with
    | inl r =>
      simp [ih, List.filterMap_cons, List.filter_cons,
        sync_result, submits_creation, hone]
    | inr c =>
      have hct : c = t := resolve_one_inr_eq ctx rq t c hone
      subst hct
      simp [ih, List.filterMap_cons, List.filter_cons,
        sync_result, submits_creation, hone]

/-- C2: for a specific-topics request the response list is every
synchronously resolved entry in the original relative order of the
requested names, followed by the results of the asynchronously created
topics in submission order. -/
theorem C2_sync_then_async_ordering (ctx : request_context)
    (rq : metadata_request) (ts : List String)
    (hla : rq.list_all_topics = false) (htp : rq.topics = some ts) :
    get_topic_metadata ctx rq =
      ts.filterMap (sync_result ctx rq) ++
      (ts.filter (submits_creation ctx rq)).map (create_topic ctx) := by
  unfold get_topic_metadata
  rw [hla, htp]
  simp only [Bool.false_eq_true, if_false, Option.getD_some,
    resolve_loop_eq]

/-- Environment for the C2 witness, the spec's ordering example: "A"
unauthorized, "B" in the cache, "C" requiring creation. -/
def ctxC2 : request_context :=
  { authorized_describe := fun t => !(t == "A"),
    authorized_create := fun _ => true,
    all_topics_metadata := [⟨kafka_namespace, "B", []⟩],
    auto_create_topics_enabled := true,
    autocreate := fun t => some ⟨t, errc.success⟩,
    is_materialized_topic := fun _ => false,
    get_source_topic := fun t => t,
    map_topic_error_code := fun _ => 0,
    authorized_operations := fun _ => 0 }

/-- The request for topics [A, B, C]. -/
def requestC2 : metadata_request :=
  { topics := some ["A", "B", "C"],
    allow_auto_topic_creation := true,
    include_cluster_authorized_operations := false,
    include_topic_authorized_operations := false,
    list_all_topics := false }

/-- Witness for C2 at the spec's example: the result is
[A-error, B-success, C-result], with C appended after the synchronous
entries although it was third in the request. -/
theorem C2_witness :
    get_topic_metadata ctxC2 requestC2 =
      [make_error_topic_response "A" error_code.topic_authorization_failed,
       ⟨error_code.none, "B", false, [], 0⟩,
       make_error_topic_response "C" error_code.invalid_topic_exception] := by
  have h := C2_sync_then_async_ordering ctxC2 requestC2 ["A", "B", "C"]
    rfl rfl
  rw [h]
  decide

/-- C6: the result of a submitted create-topic task is determined by the
creation outcome — an exception/timeout of the asynchronous call gives a
request_timed_out stub; any creation error other than success or
already-exists gives a stub with the mapped error code; success or
already-exists re-reads the cache, giving an invalid_topic_exception
stub if the topic is still absent and a success entry otherwise — with
the requested name preserved in every branch (the creation service
echoes one result per submitted topic, the hypothesis `hecho`). -/
theorem C6_create_topic_outcomes (ctx : request_context) (topic : String)
    (hecho : ∀ r, ctx.autocreate topic = some r → r.tp = topic) :
    (ctx.autocreate topic = none →
      create_topic ctx topic =
        make_error_topic_response topic error_code.request_timed_out) ∧
    (∀ r, ctx.autocreate topic = some r →
      (r.ec ≠ errc.success ∧ r.ec ≠ errc.topic_already_exists →
        create_topic ctx topic =
          make_error_topic_response topic (ctx.map_topic_error_code r.ec)) ∧
      ((r.ec = errc.success ∨ r.ec = errc.topic_already_exists) →
        (ctx.get_topic_metadata kafka_namespace topic = none →
          create_topic ctx topic =
            make_error_topic_response topic
              error_code.invalid_topic_exception) ∧
        (∀ tp_md,
          ctx.get_topic_metadata kafka_namespace topic = some tp_md →
          create_topic ctx topic = make_from_topic_metadata tp_md ∧
          (create_topic ctx topic).err_code = error_code.none ∧
          (create_topic ctx topic).name = topic))) := by
  constructor
  · intro h
    simp [create_topic, h]
  · intro r hr
    have htp : r.tp = topic := hecho r hr
    constructor
    · intro ⟨h1, h2⟩
      simp [create_topic, hr, h1, h2, htp]
    · intro hok
      constructor
      · intro hnone
        rcases hok with h | h <;>
          simp [create_topic, hr, htp, hnone, h]
      · intro tp_md hsome
        have hcr : create_topic ctx topic = make_from_topic_metadata tp_md := by
          rcases hok with h | h <;>
            simp [create_topic, hr, htp, hsome, h]
        have hname : tp_md.tp = topic := by
          have hf := List.find?_some (p := fun t : topic_metadata =>
            t.ns == kafka_namespace && t.tp == topic)
            (show List.find? _ ctx.all_topics_metadata = some tp_md from
              hsome)
          simp only [Bool.and_eq_true, beq_iff_eq] at hf
          exact hf.2
        exact ⟨hcr, by rw [hcr]; rfl, by rw [hcr, ← hname]; rfl⟩

/-- Environment for the C6 witness: creating "t" succeeds and the cache
then contains it. -/
def ctxC6 : request_context :=
  { authorized_describe := fun _ => true,
    authorized_create := fun _ => true,
    all_topics_metadata := [⟨kafka_namespace, "t", []⟩],
    auto_create_topics_enabled := true,
    autocreate := fun t => some ⟨t, errc.success⟩,
    is_materialized_topic := fun _ => false,
    get_source_topic := fun t => t,
    map_topic_error_code := fun _ => 0,
    authorized_operations := fun _ => 0 }

/-- Witness for C6 at the success branch: the task result is the cache
entry with the requested name. -/
theorem C6_witness :
    create_topic ctxC6 "t" =
      make_from_topic_metadata ⟨kafka_namespace, "t", []⟩ ∧
    (create_topic ctxC6 "t").name = "t" := by
  have h := ((C6_create_topic_outcomes ctxC6 "t"
      (fun r hr => by injection hr with h1; rw [← h1])).2
    ⟨"t", errc.success⟩ rfl).2 (Or.inl rfl)
  exact ⟨(h.2 ⟨kafka_namespace, "t", []⟩ rfl).1,
    (h.2 ⟨kafka_namespace, "t", []⟩ rfl).2.2⟩

/-- C8: response encoding emits every version-gated field exactly when
the version meets its threshold — throttle time at v ≥ 3, broker rack at
v ≥ 1, cluster id at v ≥ 2, controller id at v ≥ 1, topic is-internal at
v ≥ 1, topic authorized-ops at v ≥ 8, partition leader-epoch at v ≥ 7,
partition offline-replicas at v ≥ 5, cluster authorized-ops at v ≥ 8 —
and every other field unconditionally, as the fully flattened token
streams show. -/
theorem C8_encode_version_gating (version : Nat)
    (resp : metadata_response) (b : metadata_response.broker)
    (t : metadata_response.topic) (p : metadata_response.partition) :
    metadata_response.encode version resp =
      (if 3 ≤ version then [WireTok.wInt32 resp.throttle_time] else []) ++
      ([WireTok.wLen resp.brokers.length] ++
        (resp.brokers.map
          (metadata_response.broker.encode version)).flatten) ++
      (if 2 ≤ version then [WireTok.wNullStr resp.cluster_id] else []) ++
      (if 1 ≤ version then [WireTok.wInt32 resp.controller_id] else []) ++
      ([WireTok.wLen resp.topics.length] ++
        (resp.topics.map (metadata_response.topic.encode version)).flatten) ++
      (if 8 ≤ version then
        [WireTok.wInt32 resp.cluster_authorized_operations] else []) ∧
    metadata_response.broker.encode version b =
      [WireTok.wInt32 b.node_id, WireTok.wStr b.host,
       WireTok.wInt32 b.port] ++
      (if 1 ≤ version then [WireTok.wNullStr b.rack] else []) ∧
    metadata_response.topic.encode version t =
      [WireTok.wInt16 t.err_code, WireTok.wStr t.name] ++
      (if 1 ≤ version then [WireTok.wBool t.is_internal] else []) ++
      ([WireTok.wLen t.partitions.length] ++
        (t.partitions.map
          (metadata_response.partition.encode version)).flatten) ++
      (if 8 ≤ version then
        [WireTok.wInt32 t.topic_authorized_operations] else []) ∧
    metadata_response.partition.encode version p =
      [WireTok.wInt16 p.err_code, WireTok.wInt32 p.index,
       WireTok.wInt32 p.leader] ++
      (if 7 ≤ version then [WireTok.wInt32 p.leader_epoch] else []) ++
      ([WireTok.wLen p.replica_nodes.length] ++
        (p.replica_nodes.map (fun n => [WireTok.wInt32 n])).flatten) ++
      ([WireTok.wLen p.isr_nodes.length] ++
        (p.isr_nodes.map (fun n => [WireTok.wInt32 n])).flatten) ++
      (if 5 ≤ version then
        [WireTok.wLen p.offline_replicas.length] ++
          (p.offline_replicas.map (fun n => [WireTok.wInt32 n])).flatten
       else []) := by
  refine ⟨?_, rfl, ?_, ?_⟩
  · simp [metadata_response.encode, write_array]
  · simp [metadata_response.topic.encode, write_array]
  · by_cases h5 : 5 ≤ version <;>
      simp [metadata_response.partition.encode, write_array, h5]

/-- Environment for the C5 witness: "t" is describe-authorized and
absent from the cache, auto-creation globally disabled. -/
def ctxC5 : request_context :=
  { authorized_describe := fun _ => true,
    authorized_create := fun _ => true,
    all_topics_metadata := [],
    auto_create_topics_enabled := false,
    autocreate := fun t => some ⟨t, errc.success⟩,
    is_materialized_topic := fun _ => false,
    get_source_topic := fun t => t,
    map_topic_error_code := fun _ => 0,
    authorized_operations := fun _ => 0 }

/-- A request with `allow_auto_topic_creation = true`, showing global
disablement overrides it. -/
def requestC5 : metadata_request :=
  { topics := some ["t"],
    allow_auto_topic_creation := true,
    include_cluster_authorized_operations := false,
    include_topic_authorized_operations := false,
    list_all_topics := false }

/-- Witness for C5: the missing topic resolves synchronously to an
unknown_topic_or_partition stub and is not submitted for creation,
although the request allows auto-creation. -/
theorem C5_witness :
    resolve_one ctxC5 requestC5 "t" =
      .inl (make_error_topic_response "t"
        error_code.unknown_topic_or_partition) ∧
    "t" ∉ (resolve_loop ctxC5 requestC5 ["t"]).2 := by
  have h := C5_no_autocreate_when_disabled ctxC5 requestC5 "t" rfl rfl
    (Or.inl rfl)
  exact ⟨h.1, h.2 ["t"]⟩

/-! ## Round-trip lemmas for the wire codec -/

/-- Reading back `n` written elements yields the element-wise decodes. -/
theorem readN_write (f : List WireTok → Option (α × List WireTok))
    (g : β → List WireTok) (h : β → α) (xs : List β) (rest : List WireTok)
    (hel : ∀ x r2, f (g x ++ r2) = some (h x, r2)) :
    readN f xs.length ((xs.map g).flatten ++ rest) = some (xs.map h, rest) := by
  induction xs with
  | nil => simp [readN]
  | cons x xs ih =>
    simp only [List.map_cons, List.flatten_cons, List.length_cons,
      List.append_assoc, readN]
    rw [hel x]
    simp [ih]

/-- Round trip of `write_array` through `read_array`. -/
theorem read_write_array (f : List WireTok → Option (α × List WireTok))
    (g : β → List WireTok) (h : β → α) (xs : List β) (rest : List WireTok)
    (hel : ∀ x r2, f (g x ++ r2) = some (h x, r2)) :
    read_array f (write_array xs g ++ rest) = some (xs.map h, rest) := by
  simp only [write_array, List.cons_append, read_array]
  exact readN_write f g h xs rest hel

/-- Round trip of `write_nullable_array` through `read_nullable_array`:
the null sentinel and a present (possibly empty) array round-trip
distinctly. -/
theorem read_write_nullable_array
    (f : List WireTok → Option (α × List WireTok))
    (g : β → List WireTok) (h : β → α) (xs : Option (List β))
    (rest : List WireTok)
    (hel : ∀ x r2, f (g x ++ r2) = some (h x, r2)) :
    read_nullable_array f (write_nullable_array xs g ++ rest) =
      some (xs.map (List.map h), rest) := by
  cases xs with
  | none => rfl
  | some l =>
    simp only [write_nullable_array, List.cons_append, read_nullable_array]
    rw [readN_write f g h l rest hel]
    rfl

/-- Round trip of an int32 array. -/
theorem read_write_int_array (xs : List Int) (rest : List WireTok) :
    read_array readInt32
      (write_array xs (fun n => [WireTok.wInt32 n]) ++ rest) =
      some (xs, rest) := by
  have := read_write_array readInt32 (fun n => [WireTok.wInt32 n]) id xs
    rest (fun x r2 => rfl)
  simpa using this

/-- Round trip of the nullable requested-topics array. -/
theorem read_write_topics_array (xs : Option (List String))
    (rest : List WireTok) :
    read_nullable_array readString
      (write_nullable_array xs (fun tp => [WireTok.wStr tp]) ++ rest) =
      some (xs, rest) := by
  have := read_write_nullable_array readString
    (fun tp => [WireTok.wStr tp]) id xs rest (fun x r2 => rfl)
  simpa using this

/-- Round trip of the nullable requested-topics array at the end of the
stream. -/
theorem read_write_topics_array_nil (xs : Option (List String)) :
    read_nullable_array readString
      (write_nullable_array xs (fun tp => [WireTok.wStr tp])) =
      some (xs, []) := by
  have := read_write_topics_array xs []
  simpa using this

/-- A broker element round-trips to its version restriction. -/
theorem broker_roundtrip (version : Nat) (b : metadata_response.broker)
    (rest : List WireTok) :
    metadata_response.broker.decode version
      (metadata_response.broker.encode version b ++ rest) =
      some (metadata_response.broker.normalize version b, rest) := by
  by_cases h1 : 1 ≤ version <;>
    simp [metadata_response.broker.encode, metadata_response.broker.decode,
      metadata_response.broker.normalize, readInt32, readString,
      readNullString, h1]

/-- A partition element round-trips to its version restriction. -/
theorem partition_roundtrip (version : Nat)
    (p : metadata_response.partition) (rest : List WireTok) :
    metadata_response.partition.decode version
      (metadata_response.partition.encode version p ++ rest) =
      some (metadata_response.partition.normalize version p, rest) := by
  by_cases h7 : 7 ≤ version <;> by_cases h5 : 5 ≤ version <;>
    simp [metadata_response.partition.encode,
      metadata_response.partition.decode,
      metadata_response.partition.normalize, readInt16, readInt32,
      read_write_int_array, h7, h5]

/-- A topic element round-trips to its version restriction. -/
theorem topic_roundtrip (version : Nat) (t : metadata_response.topic)
    (rest : List WireTok) :
    metadata_response.topic.decode version
      (metadata_response.topic.encode version t ++ rest) =
      some (metadata_response.topic.normalize version t, rest) := by
  have harr : ∀ (xs : List metadata_response.partition)
      (r2 : List WireTok),
      read_array (metadata_response.partition.decode version)
        (write_array xs (metadata_response.partition.encode version) ++
          r2) =
        some (xs.map (metadata_response.partition.normalize version),
          r2) :=
    fun xs r2 => read_write_array _ _ _ xs r2
      (fun x r3 => partition_roundtrip version x r3)
  by_cases h1 : 1 ≤ version <;> by_cases h8 : 8 ≤ version <;>
    simp [metadata_response.topic.encode, metadata_response.topic.decode,
      metadata_response.topic.normalize, readInt16, readString, readBool,
      readInt32, harr, h1, h8]

set_option maxHeartbeats 2000000 in
/-- C4: the request and response codecs round-trip — decoding the
encoding of `x` at version `v` yields exactly the version-`v`
restriction of `x` (fields gated above `v` are not written and decode to
their absent/default values), so a value populated only with
version-appropriate fields (a fixed point of `normalize v`) decodes back
to itself; the one undefined case, a version-0 request with an absent
topics array, is reflected by `metadata_request.normalize` being `none`
exactly there. -/
theorem C4_roundtrip (version : Nat) (r : metadata_request)
    (resp : metadata_response) :
    (metadata_request.decode version (metadata_request.encode version r) =
      (metadata_request.normalize version r).map (fun x => (x, []))) ∧
    (metadata_response.decode version
        (metadata_response.encode version resp) =
      some (metadata_response.normalize version resp, [])) ∧
    (metadata_request.normalize version r = some r →
      metadata_request.decode version (metadata_request.encode version r) =
        some (r, [])) ∧
    (metadata_response.normalize version resp = resp →
      metadata_response.decode version
          (metadata_response.encode version resp) =
        some (resp, [])) := by
  have hbrok : ∀ (xs : List metadata_response.broker) (r2 : List WireTok),
      read_array (metadata_response.broker.decode version)
        (write_array xs (metadata_response.broker.encode version) ++ r2) =
        some (xs.map (metadata_response.broker.normalize version), r2) :=
    fun xs r2 => read_write_array _ _ _ xs r2
      (fun x r3 => broker_roundtrip version x r3)
  have htop : ∀ (xs : List metadata_response.topic) (r2 : List WireTok),
      read_array (metadata_response.topic.decode version)
        (write_array xs (metadata_response.topic.encode version) ++ r2) =
        some (xs.map (metadata_response.topic.normalize version), r2) :=
    fun xs r2 => read_write_array _ _ _ xs r2
      (fun x r3 => topic_roundtrip version x r3)
  have htop0 : ∀ (xs : List metadata_response.topic),
      read_array (metadata_response.topic.decode version)
        (write_array xs (metadata_response.topic.encode version)) =
        some (xs.map (metadata_response.topic.normalize version), []) := by
    intro xs
    have := htop xs []
    simpa using this
  have hreq : metadata_request.decode version
      (metadata_request.encode version r) =
      (metadata_request.normalize version r).map (fun x => (x, [])) := by
    by_cases h4 : 4 ≤ version <;> by_cases h8 : 8 ≤ version <;>
      by_cases h1 : 1 ≤ version <;>
      cases htp : r.topics <;>
      simp [metadata_request.encode, metadata_request.decode,
        metadata_request.normalize, read_write_topics_array,
        read_write_topics_array_nil, readBool, h4, h8, h1, htp]
  have hresp : metadata_response.decode version
      (metadata_response.encode version resp) =
      some (metadata_response.normalize version resp, []) := by
    by_cases h3 : 3 ≤ version <;> by_cases h2 : 2 ≤ version <;>
      by_cases h1 : 1 ≤ version <;> by_cases h8 : 8 ≤ version <;>
      simp [metadata_response.encode, metadata_response.decode,
        metadata_response.normalize, readInt32, readNullString, hbrok,
        htop, htop0, h3, h2, h1, h8]
  exact ⟨hreq, hresp,
    fun hfix => by rw [hreq, hfix]; rfl,
    fun hfix => by rw [hresp, hfix]⟩

/-- A version-9 request populated with every field available at 9. -/
def requestC4 : metadata_request :=
  { topics := some ["a"],
    allow_auto_topic_creation := true,
    include_cluster_authorized_operations := true,
    include_topic_authorized_operations := true,
    list_all_topics := false }

/-- A version-9 response populated with every field available at 9. -/
def responseC4 : metadata_response :=
  { throttle_time := 5,
    brokers := [⟨1, "h", 9092, some "r"⟩],
    cluster_id := some "cid",
    controller_id := 1,
    topics := [⟨0, "a", true, [⟨0, 2, 1, 3, [1, 2], [1, 2], [2]⟩], 7⟩],
    cluster_authorized_operations := 9 }

/-- Witness for C4: a fully populated version-9 request and response
both decode back to themselves from their encodings. -/
theorem C4_witness :
    metadata_request.decode 9 (metadata_request.encode 9 requestC4) =
      some (requestC4, []) ∧
    metadata_response.decode 9 (metadata_response.encode 9 responseC4) =
      some (responseC4, []) :=
  ⟨(C4_roundtrip 9 requestC4 responseC4).2.2.1 (by decide),
   (C4_roundtrip 9 requestC4 responseC4).2.2.2 (by decide)⟩

end Kafka
